/-
Verification of the rodrigo_radio player against its specification.

Shallow embedding of the relevant program parts:
 * `hardware/rotary_encoder.py` — VolumeController: time-based dB ceiling,
   percentage/dB conversion, set_volume / adjust_volume, periodic limiter.
 * `core/sources.py` — SourceManager: reload_sources, cycle_source.
 * `core/player_controller.py` — PlayerController: _play_source_with_retry,
   retry_in_background, _switch_source, _on_cycle_source.
 * `backends/spotify_backend.py` — _monitor_playback natural-end debounce.

Python floats are modelled as exact rationals (ℚ); Python `int(x)` is
truncation toward zero (`pytrunc`).  External reads (mixer level, clock,
backend play results, the concurrently mutated `_target_source` and
`_cancel_retry` flags) are supplied as explicit oracle parameters, one value
per program read.  Fire-and-forget beeps and log lines that carry no control
flow are elided; effects that the specification talks about (play calls,
sleeps, stops, installs) are recorded in an explicit trace.
-/
import Mathlib

namespace RodrigoRadio

/-- Python `int(x)`: truncation toward zero on exact rationals. -/
def pytrunc (q : ℚ) : ℤ := if 0 ≤ q then ⌊q⌋ else ⌈q⌉

/-! ## Volume limiter (`hardware/rotary_encoder.py`, class VolumeController) -/

/-- `VolumeController._get_time_based_db_offset`, with the wall clock supplied
as minutes since midnight (the source compares `datetime.time` values against
whole-hour constants, so minute resolution is exact).  `day`, `evening`,
`night` are the configured offsets. -/
def get_time_based_db_offset (day evening night : ℚ) (m : ℕ) : ℚ :=
  if 19 * 60 ≤ m ∨ m < 7 * 60 then night
  else if 7 * 60 ≤ m ∧ m < 8 * 60 then night
  else if 8 * 60 ≤ m ∧ m < 9 * 60 then evening
  else if 9 * 60 ≤ m ∧ m < 17 * 60 then day
  else if 17 * 60 ≤ m ∧ m < 18 * 60 then day
  else if 18 * 60 ≤ m ∧ m < 19 * 60 then evening
  else day

/-- `VolumeController._db_to_percentage` over the effective range
`[min_db, max_db]`: clamp, special-case a degenerate range, linear map,
`int()` truncation, clamp to `[0, 100]`. -/
def db_to_percentage (min_db max_db db_value : ℚ) : ℤ :=
  let v := max min_db (min max_db db_value)
  if max_db = min_db then 100
  else max 0 (min 100 (pytrunc ((v - min_db) / (max_db - min_db) * 100)))

/-- `VolumeController._percentage_to_db`: clamp the percentage, map 0 to the
mixer minimum, otherwise linear over `[min_db, max_db]`. -/
def percentage_to_db (min_db max_db : ℚ) (percentage : ℤ) : ℚ :=
  let p := max 0 (min 100 percentage)
  if p = 0 then min_db
  else min_db + ((p : ℚ) / 100) * (max_db - min_db)

/-- A write issued to the OS mixer by the volume controller: either a precise
raw value in hundredths of a dB via `amixer cset numid=N -- raw`, or a
percentage via `amixer set <control> <pct>%`, which amixer interprets on the
raw hardware range — not on the controller's capped effective range. -/
inductive MixerWrite
  | csetDbRaw (raw : ℤ)
  | setPercent (pct : ℤ)
deriving DecidableEq, Repr

/-- `VolumeController.set_volume`: clamp the request to `[0, 100]`, convert
via `_percentage_to_db`, compute `db_raw = int(db_value * 100)`; when
`_get_control_numid()` resolves (`numidAvailable`), write `db_raw` via
`cset`; otherwise fall back to a percentage write of the clamped request,
guarded by `max_percent = _db_to_percentage(self.max_db)` (lines 401-413). -/
def set_volume (min_db max_db : ℚ) (numidAvailable : Bool) (volume : ℤ) :
    MixerWrite :=
  let v := max 0 (min 100 volume)
  let db_value := percentage_to_db min_db max_db v
  let db_raw := pytrunc (db_value * 100)
  if numidAvailable then .csetDbRaw db_raw
  else
    let max_percent := db_to_percentage min_db max_db max_db
    let v' := if v > max_percent then max_percent else v
    .setPercent v'

/-- `VolumeController.adjust_volume`: reads the current percentage and
delegates to `set_volume(current + delta)`. -/
def adjust_volume (min_db max_db : ℚ) (numidAvailable : Bool)
    (current delta : ℤ) : MixerWrite :=
  set_volume min_db max_db numidAvailable (current + delta)

/-- `VolumeController._update_time_based_limit`: recompute the effective
ceiling `base + offset(now)` (stored into `self.max_db` before any write); if
the observed mixer level (`currentDb`, `none` when the `amixer` output could
not be parsed) strictly exceeds it, write `int(new_max * 100)` via `cset`
when the numid resolves, else fall back to a percentage write of
`max_percent = _db_to_percentage(new_max_db)` (lines 232-243); otherwise
issue no write.  Returns the new effective `max_db` and the optional write. -/
def update_time_based_limit (min_db base day evening night : ℚ) (m : ℕ)
    (numidAvailable : Bool) (currentDb : Option ℚ) : ℚ × Option MixerWrite :=
  let new_max := base + get_time_based_db_offset day evening night m
  match currentDb with
  | none => (new_max, none)
  | some c =>
      if new_max < c then
        (new_max,
          some (if numidAvailable then
              MixerWrite.csetDbRaw (pytrunc (new_max * 100))
            else
              MixerWrite.setPercent (db_to_percentage min_db new_max new_max)))
      else (new_max, none)

/-- Default mixer minimum (`_get_mixer_limits` fallback: −102.39 dB). -/
def minDbDefault : ℚ := -10239 / 100

/-- Default base ceiling (`VolumeController.__init__` default `max_db=-1.0`). -/
def baseMaxDefault : ℚ := -1

/-- Configured day offset (`RotaryEncoder.__init__` default 0.0 dB). -/
def dayOffDefault : ℚ := 0

/-- Configured evening offset (`RotaryEncoder.__init__` default −7.0 dB). -/
def eveningOffDefault : ℚ := -7

/-- Configured night offset (`RotaryEncoder.__init__` default −14.0 dB). -/
def nightOffDefault : ℚ := -14

/-- The effective ceiling `base_max_db + offset(now)` under the configured
defaults. -/
def effective_ceiling (m : ℕ) : ℚ :=
  baseMaxDefault +
    get_time_based_db_offset dayOffDefault eveningOffDefault nightOffDefault m

/-- Default hardware maximum (`_get_mixer_limits` fallback: raw 400, i.e.
+4.0 dB; the parsed example in the source comments is the same). -/
def hwMaxDefault : ℚ := 4

/-- The dB level the mixer is left at by a write: a `cset` raw value is
`raw / 100` dB exactly; a percentage write is interpreted by amixer linearly
over the raw hardware range `[min_db, hw_max_db]` (this control's raw units
are hundredths of a dB, so linear-in-raw is linear-in-dB) — in particular
`100%` is the hardware maximum, independent of the controller's ceiling. -/
def mixer_db_of_write (min_db hw_max_db : ℚ) : MixerWrite → ℚ
  | .csetDbRaw raw => (raw : ℚ) / 100
  | .setPercent pct => min_db + ((pct : ℚ) / 100) * (hw_max_db - min_db)

/-! ## Source registry (`core/sources.py`, class SourceManager) -/

/-- A configured source record (`sources.json` entry): `{id, label, type,
channel_id?, playlist_id?}`.  Python compares these dicts structurally
(`_target_source != source`), which structural equality models. -/
structure Source where
  id : String
  label : String
  type : String
  channel_id : Option String
  playlist_id : Option String
deriving DecidableEq, Repr

/-- SourceManager's mutable state: the ordered source list and the current
index. -/
structure SMState where
  sources : List Source
  current_index : ℕ
deriving DecidableEq, Repr

/-- The `for i, source in enumerate(self._sources): if source.get('id') ==
current_source_id: found_index = i; break` loop in `reload_sources`. -/
def find_source_index (sources : List Source) (cid : String) : Option ℕ :=
  match sources with
  | [] => none
  | s :: rest =>
      if s.id = cid then some 0
      else (find_source_index rest cid).map (fun j => j + 1)

/-- `SourceManager.reload_sources(preserve_current=True)`.  `fileChanged` is
the `_has_file_changed()` probe; `newSources` is the parsed content of the
changed file.  Python truthiness of `current_source_id` is `≠ ""` on present
ids; the state save and log lines are external effects and elided. -/
def reload_sources (st : SMState) (fileChanged : Bool) (newSources : List Source) :
    Bool × SMState :=
  if fileChanged = false then (false, st)
  else
    let current_source_id : Option String := (st.sources.get? st.current_index).map Source.id
    let afterLoad : SMState := { sources := newSources, current_index := st.current_index }
    match current_source_id with
    | some cid =>
        if cid ≠ "" ∧ newSources ≠ [] then
          match find_source_index newSources cid with
          | some j => (true, { afterLoad with current_index := j })
          | none => (true, { afterLoad with current_index := 0 })
        else (true, afterLoad)
    | none => (true, afterLoad)

/-- `SourceManager.cycle_source` (hot-reload probe and state save elided):
advance the index round-robin and return the now-current source. -/
def cycle_source (st : SMState) : Option Source × SMState :=
  if st.sources = [] then (none, st)
  else
    let i := (st.current_index + 1) % st.sources.length
    let st' : SMState := { sources := st.sources, current_index := i }
    (st'.sources.get? i, st')

/-! ## Player controller (`core/player_controller.py`, class PlayerController)

The controller is driven by concurrently mutated fields (`_target_source`,
`_cancel_retry`) and by backend calls; each read the code performs is fed from
an explicit oracle (`AttemptEnv` per loop iteration).  Externally visible
actions are recorded in a trace of `Effect`s; beeps and log lines that decide
nothing are elided, except the exhausted-retries warning, which C2 is about. -/

/-- The two cached backend instances (`_spotify_backend`, `_youtube_backend`),
reused per type for the process lifetime. -/
inductive BackendId
  | spotify
  | youtube
deriving DecidableEq, Repr

/-- `PlayerController._get_backend_for_source`: dispatch on `source['type']`;
an unknown type raises `ValueError` (modelled as `.error`). -/
def get_backend_for_source (source : Source) : Except String BackendId :=
  if source.type = "spotify_playlist" then .ok .spotify
  else if source.type = "youtube_channel" ∨ source.type = "youtube_playlist" then
    .ok .youtube
  else .error source.type

/-- The controller fields protected by `_lock`. -/
structure ControllerState where
  current_backend : Option BackendId
  current_source : Option Source
  target_source : Option Source
deriving DecidableEq, Repr

/-- Result of one `backend.play(...)` call.  `failure` covers a raised
`BackendError` / `ConnectionError` / `TimeoutError` / any other exception and
also `play()` returning `False` (re-raised as `BackendError`): all take the
same classify-sleep-retry path (they differ only in which beep is played). -/
inductive PlayOutcome
  | success
  | failure
deriving DecidableEq, Repr

/-- Oracle values consumed by one iteration of the retry loop: the
`_cancel_retry.is_set()` read, the locked `_target_source` read at the loop
head, the outcome of `backend.play(...)`, and the locked `_target_source`
re-read after a successful play. -/
structure AttemptEnv where
  cancelSet : Bool
  targetAtLoopHead : Option Source
  playResult : PlayOutcome
  targetAfterPlay : Option Source
deriving DecidableEq, Repr

/-- Externally visible actions of the controller, in program order.
`playCall b i` is `backend.play(...)` on backend `b` during loop attempt `i`;
`sleep d` is `time.sleep(d)`; `stopStale` stops a backend that started after
its switch became stale; `install` publishes a backend as
`current_backend`/`current_source`; `stopOld` stops the previously current
backend after an install; `logPlaybackStart` records history;
`logFailureNoCascade` is the exhausted-retries warning; `stopCurrentOnCycle`
is `_on_cycle_source`'s immediate stop; `ensureStopOld` is `_switch_source`'s
stop of a still-playing old backend; `launchRetry` spawns the background
retry thread for a source; `doubleCheckStopOld` is `retry_in_background`'s
post-success stop; `logSourceChange` records the source change;
`noSourcesBeep` signals an empty source list. -/
inductive Effect
  | playCall (b : BackendId) (attempt : ℕ)
  | sleep (seconds : ℚ)
  | stopStale (b : BackendId)
  | install (b : BackendId) (s : Source)
  | stopOld (b : BackendId)
  | logPlaybackStart
  | logFailureNoCascade
  | stopCurrentOnCycle (b : BackendId)
  | ensureStopOld (b : BackendId)
  | launchRetry (s : Source)
  | doubleCheckStopOld (b : BackendId)
  | logSourceChange
  | noSourcesBeep
deriving DecidableEq, Repr

/-- Outcome of a controller code path: returned boolean, resulting locked
state, trace of effects. -/
structure RunResult where
  result : Bool
  state : ControllerState
  trace : List Effect
deriving DecidableEq, Repr

/-- `MAX_RETRIES = 2` (`core/player_controller.py`). -/
def MAX_RETRIES : ℕ := 2

/-- `RETRY_SLEEP = 2.0` seconds (`core/player_controller.py`). -/
def RETRY_SLEEP : ℚ := 2

/-- The `for attempt in range(1, MAX_RETRIES + 1)` body of
`_play_source_with_retry`.  `fuel` bounds the recursion (the caller passes
`MAX_RETRIES`, which always suffices since each recursive call has
`attempt < MAX_RETRIES`); `attempt` is the loop variable.  Per iteration:
check the cancel flag, check the target, resolve the backend (a `ValueError`
for an unknown type is caught by the blanket `except Exception` handler,
which sleeps and retries like any other failure — the loop's own
unknown-type `return False` is unreachable), call `play`, then either re-check
staleness and install, or classify-sleep-retry until the cap. -/
def playLoop (source : Source) (st : ControllerState) (env : ℕ → AttemptEnv) :
    ℕ → ℕ → RunResult
  | 0, _ => ⟨false, st, []⟩
  | fuel + 1, attempt =>
      let e := env attempt
      if e.cancelSet then ⟨false, st, []⟩
      else if e.targetAtLoopHead ≠ some source then ⟨false, st, []⟩
      else
        match get_backend_for_source source with
        | .error _ =>
            if attempt < MAX_RETRIES then
              let r := playLoop source st env fuel (attempt + 1)
              ⟨r.result, r.state, Effect.sleep RETRY_SLEEP :: r.trace⟩
            else ⟨false, st, []⟩
        | .ok backend =>
            match e.playResult with
            | .success =>
                if e.targetAfterPlay ≠ some source then
                  ⟨false, st, [Effect.playCall backend attempt,
                    Effect.stopStale backend]⟩
                else
                  let st' : ControllerState :=
                    { current_backend := some backend,
                      current_source := some source,
                      target_source := none }
                  let stopOldTrace : List Effect :=
                    match st.current_backend with
                    | some ob =>
                        if ob ≠ backend then [Effect.stopOld ob] else []
                    | none => []
                  ⟨true, st',
                    Effect.playCall backend attempt ::
                      Effect.install backend source ::
                        stopOldTrace ++ [Effect.logPlaybackStart]⟩
            | .failure =>
                if attempt < MAX_RETRIES then
                  let r := playLoop source st env fuel (attempt + 1)
                  ⟨r.result, r.state,
                    Effect.playCall backend attempt ::
                      Effect.sleep RETRY_SLEEP :: r.trace⟩
                else ⟨false, st, [Effect.playCall backend attempt]⟩

/-- Oracle inputs of one `_play_source_with_retry` call: the locked
`_target_source` read of the initial staleness check, then one `AttemptEnv`
per loop iteration. -/
structure RetryEnv where
  initialTarget : Option Source
  att : ℕ → AttemptEnv

/-- `PlayerController._play_source_with_retry`: initial staleness check, clear
the cancel flag (later reads are oracle-supplied, as the flag may be set again
concurrently), then the retry loop from attempt 1. -/
def play_source_with_retry (source : Source) (st : ControllerState)
    (env : RetryEnv) : RunResult :=
  if env.initialTarget ≠ some source then ⟨false, st, []⟩
  else playLoop source st env.att MAX_RETRIES 1

/-- `retry_in_background` (the closure in `_switch_source`): run the retry; on
failure check the cancel flag then the target and otherwise only log; on
success double-check the captured old backend is stopped and log the source
change.  `capturedOldBackend` is the `old_backend` captured by
`_switch_source`; `cancelAfter` and `targetAfter` are the post-failure reads
of `_cancel_retry` and `_target_source`. -/
def retry_in_background (source : Source) (st : ControllerState) (env : RetryEnv)
    (capturedOldBackend : Option BackendId) (cancelAfter : Bool)
    (targetAfter : Option Source) : RunResult :=
  let r := play_source_with_retry source st env
  if r.result = false then
    if cancelAfter then r
    else if targetAfter ≠ some source then r
    else ⟨false, r.state, r.trace ++ [Effect.logFailureNoCascade]⟩
  else
    let doubleCheckTrace : List Effect :=
      match capturedOldBackend with
      | some ob =>
          if r.state.current_backend ≠ some ob then
            [Effect.doubleCheckStopOld ob]
          else []
      | none => []
    ⟨true, r.state, r.trace ++ doubleCheckTrace ++ [Effect.logSourceChange]⟩

/-- The synchronous part of `PlayerController._switch_source` (cancel-flag
set, ensure-stopped check on the current backend, target update, thread
spawn).  `oldIsPlaying` is the `old_backend.is_playing()` probe; the spawned
retry itself is `retry_in_background`. -/
def switch_source (st : ControllerState) (source : Source) (oldIsPlaying : Bool) :
    ControllerState × List Effect :=
  let ensureTrace : List Effect :=
    match st.current_backend with
    | some b => if oldIsPlaying then [Effect.ensureStopOld b] else []
    | none => []
  ({ st with target_source := some source },
    ensureTrace ++ [Effect.launchRetry source])

/-- `PlayerController._on_cycle_source`: set the cancel flag, clear the
target, cycle the source manager, skip the immediate stop when the new
source's `(id, type)` equals the current one, announce (elided), then
`_switch_source`.  `newSource` is what `source_manager.cycle_source()`
returned; `oldIsPlaying` feeds `_switch_source`'s probe. -/
def on_cycle_source (st : ControllerState) (newSource : Option Source)
    (oldIsPlaying : Bool) : ControllerState × List Effect :=
  let st1 : ControllerState := { st with target_source := none }
  match newSource with
  | none => (st1, [Effect.noSourcesBeep])
  | some ns =>
      let is_same_source : Bool :=
        match st1.current_source with
        | some cs => cs.id == ns.id && cs.type == ns.type
        | none => false
      let stopTrace : List Effect :=
        if !is_same_source then
          match st1.current_backend with
          | some b => [Effect.stopCurrentOnCycle b]
          | none => []
        else []
      let sw := switch_source st1 ns oldIsPlaying
      (sw.1, stopTrace ++ sw.2)

/-! ## Natural-end monitor (`backends/spotify_backend.py`, `_monitor_playback`)

One `Obs` per loop iteration: whether `_current_playlist_id` is set, the
`is_playing()` probe, and the `_is_paused` flag at that instant.  The
2-second sleeps order the iterations but carry no state. -/

/-- Oracle values consumed by one monitor iteration. -/
structure Obs where
  hasPlaylist : Bool
  playing : Bool
  paused : Bool
deriving DecidableEq, Repr

/-- Monitor-loop state: the `consecutive_stopped_checks` counter, the
`_was_playing` flag, the `_monitoring_active` flag, and whether the
playback-ended callback has been invoked. -/
structure MonState where
  consecutive : ℕ
  was_playing : Bool
  active : Bool
  fired : Bool
deriving DecidableEq, Repr

/-- `required_stopped_checks = 3` in `_monitor_playback`. -/
def required_stopped_checks : ℕ := 3

/-- One iteration of the `while self._monitoring_active` loop: skip when no
playlist is loaded; reset the counter when playing; when stopped after
playing and not paused, bump the counter and at the threshold fire the
callback once, clear `_monitoring_active` and break; otherwise reset.
Returns the new state and whether the callback fired this iteration. -/
def monitorStep (o : Obs) (s : MonState) : MonState × Bool :=
  if s.active = false then (s, false)
  else if o.hasPlaylist = false then (s, false)
  else if o.playing then
    ({ s with consecutive := 0, was_playing := true }, false)
  else if s.was_playing && !o.paused then
    let c := s.consecutive + 1
    if required_stopped_checks ≤ c then
      ({ consecutive := c, was_playing := false,
         active := false, fired := true }, true)
    else ({ s with consecutive := c }, false)
  else ({ s with consecutive := 0, was_playing := false }, false)

/-- State on entry to `_monitor_playback` after `_start_monitoring`:
counter 0, `_was_playing = True`, `_monitoring_active = True`. -/
def monitorInit : MonState := ⟨0, true, true, false⟩

/-- State of the monitor after `n` iterations over the observation stream
`obs`. -/
def monitorRun (obs : ℕ → Obs) : ℕ → MonState
  | 0 => monitorInit
  | n + 1 => (monitorStep (obs n) (monitorRun obs n)).1

/-- Whether iteration `i` fires the playback-ended callback. -/
def firesAt (obs : ℕ → Obs) (i : ℕ) : Bool :=
  (monitorStep (obs i) (monitorRun obs i)).2

/-- Number of callback invocations within the first `n` iterations. -/
def fireCount (obs : ℕ → Obs) (n : ℕ) : ℕ :=
  ((List.range n).filter (fun i => firesAt obs i)).length

/-- An observation of not-playing while not paused. -/
def stopped_not_paused (o : Obs) : Prop := o.playing = false ∧ o.paused = false

/-! ## Concrete fixtures used by witnesses and counterexamples -/

/-- A Spotify-playlist source. -/
def sourceSpotifyFx : Source := ⟨"s1", "S1", "spotify_playlist", none, some "p1"⟩

/-- A source whose `type` is not one of the three known types. -/
def sourceUnknownFx : Source := ⟨"u1", "U1", "radio_stream", none, none⟩

/-- Controller state with no backend installed and the Spotify source as
target. -/
def stIdleFx : ControllerState := ⟨none, none, some sourceSpotifyFx⟩

/-- Controller state with no backend installed and the unknown-type source as
target. -/
def stIdleUnknownFx : ControllerState := ⟨none, none, some sourceUnknownFx⟩

/-- Controller state currently playing the Spotify source. -/
def stPlayingFx : ControllerState := ⟨some .spotify, some sourceSpotifyFx, none⟩

/-- Retry oracle: target stays on the Spotify source at the initial and
loop-head checks, `play()` succeeds, but by the post-success staleness
re-check the target has been cleared. -/
def envSuccessStaleFx : RetryEnv :=
  ⟨some sourceSpotifyFx, fun _ => ⟨false, some sourceSpotifyFx, .success, none⟩⟩

/-- Retry oracle: target stays on the Spotify source throughout and every
`play()` fails. -/
def envAlwaysFailFx : RetryEnv :=
  ⟨some sourceSpotifyFx,
    fun _ => ⟨false, some sourceSpotifyFx, .failure, some sourceSpotifyFx⟩⟩

/-- Retry oracle: target stays on the unknown-type source throughout (its
backend resolution raises before any `play()`). -/
def envUnknownFx : RetryEnv :=
  ⟨some sourceUnknownFx,
    fun _ => ⟨false, some sourceUnknownFx, .failure, some sourceUnknownFx⟩⟩

/-- Retry oracle: target stays on the Spotify source and `play()` succeeds. -/
def envRestartFx : RetryEnv :=
  ⟨some sourceSpotifyFx,
    fun _ => ⟨false, some sourceSpotifyFx, .success, some sourceSpotifyFx⟩⟩

/-- Source-manager state with exactly one configured source. -/
def smOneSourceFx : SMState := ⟨[sourceSpotifyFx], 0⟩

/-- Monitor observations: content playing for two iterations, then stopped
(not paused) from iteration 2 on, playlist loaded throughout. -/
def obsEndsFx : ℕ → Obs := fun i =>
  if i < 2 then ⟨true, true, false⟩ else ⟨true, false, false⟩

/-! ## Lemmas and claim theorems -/

lemma pytrunc_intCast (k : ℤ) : pytrunc (k : ℚ) = k := by
  unfold pytrunc
  split <;> simp

lemma pytrunc_le_ceil (q : ℚ) : pytrunc q ≤ ⌈q⌉ := by
  unfold pytrunc
  split
  · exact Int.floor_le_ceil q
  · exact le_refl _

lemma pytrunc_le_of_le_int {q : ℚ} {k : ℤ} (h : q ≤ (k : ℚ)) : pytrunc q ≤ k :=
  le_trans (pytrunc_le_ceil q) (Int.ceil_le.mpr h)

lemma pytrunc_exact {x : ℚ} {k : ℤ} (h : x = (k : ℚ)) : (pytrunc x : ℚ) = x := by
  rw [h, pytrunc_intCast]

lemma pytrunc_nonneg {q : ℚ} (h : 0 ≤ q) : 0 ≤ pytrunc q := by
  unfold pytrunc
  rw [if_pos h]
  exact Int.floor_nonneg.mpr h

lemma percentage_to_db_le {min_db max_db : ℚ} (h : min_db ≤ max_db) (p : ℤ) :
    percentage_to_db min_db max_db p ≤ max_db := by
  unfold percentage_to_db
  set p' : ℤ := max 0 (min 100 p) with hp'
  have h0 : (0 : ℤ) ≤ p' := le_max_left _ _
  have h100 : p' ≤ 100 := max_le (by norm_num) (min_le_left _ _)
  by_cases hz : p' = 0
  · simp [hz, h]
  · rw [if_neg hz]
    have h0q : (0 : ℚ) ≤ (p' : ℚ) := by exact_mod_cast h0
    have h1q : (p' : ℚ) ≤ 100 := by exact_mod_cast h100
    nlinarith [sub_nonneg.mpr h]

lemma le_percentage_to_db {min_db max_db : ℚ} (h : min_db ≤ max_db) (p : ℤ) :
    min_db ≤ percentage_to_db min_db max_db p := by
  unfold percentage_to_db
  set p' : ℤ := max 0 (min 100 p) with hp'
  have h0 : (0 : ℤ) ≤ p' := le_max_left _ _
  by_cases hz : p' = 0
  · simp [hz]
  · rw [if_neg hz]
    have h0q : (0 : ℚ) ≤ (p' : ℚ) := by exact_mod_cast h0
    nlinarith [sub_nonneg.mpr h]

lemma set_volume_cset_raw_le {min_db max_db : ℚ} (h : min_db ≤ max_db) {k : ℤ}
    (hk : (k : ℚ) = 100 * max_db) (p : ℤ) :
    pytrunc (percentage_to_db min_db max_db (max 0 (min 100 p)) * 100) ≤ k := by
  apply pytrunc_le_of_le_int
  rw [hk]
  have := percentage_to_db_le h (max 0 (min 100 p))
  linarith

lemma db_to_percentage_max {min_db max_db : ℚ} (h : min_db < max_db) :
    db_to_percentage min_db max_db max_db = 100 := by
  have hv : max min_db (min max_db max_db) = max_db := by
    rw [min_self]
    exact max_eq_right h.le
  have harg : (max_db - min_db) / (max_db - min_db) * 100 = ((100 : ℤ) : ℚ) := by
    rw [div_self (sub_ne_zero.mpr h.ne')]
    norm_num
  simp only [db_to_percentage]
  rw [hv, if_neg h.ne', harg, pytrunc_intCast]
  decide

lemma offset_cases (day evening night : ℚ) (m : ℕ) :
    get_time_based_db_offset day evening night m = night ∨
    get_time_based_db_offset day evening night m = evening ∨
    get_time_based_db_offset day evening night m = day := by
  unfold get_time_based_db_offset
  split_ifs <;> simp

lemma effective_ceiling_at_0200 : effective_ceiling 120 = -15 := by
  norm_num [effective_ceiling, get_time_based_db_offset, baseMaxDefault,
    dayOffDefault, eveningOffDefault, nightOffDefault]

lemma minDb_lt_ceiling (m : ℕ) : minDbDefault < effective_ceiling m := by
  rcases offset_cases dayOffDefault eveningOffDefault nightOffDefault m with
    hoff | hoff | hoff <;>
    · simp only [effective_ceiling]
      rw [hoff]
      norm_num [minDbDefault, baseMaxDefault, dayOffDefault, eveningOffDefault,
        nightOffDefault]

lemma effective_ceiling_lt_hwMax (m : ℕ) : effective_ceiling m < hwMaxDefault := by
  rcases offset_cases dayOffDefault eveningOffDefault nightOffDefault m with
    hoff | hoff | hoff <;>
    · simp only [effective_ceiling, hwMaxDefault]
      rw [hoff]
      norm_num [baseMaxDefault, dayOffDefault, eveningOffDefault, nightOffDefault]

lemma cset_ceiling_exact (m : ℕ) :
    (pytrunc (effective_ceiling m * 100) : ℚ) = 100 * effective_ceiling m := by
  rcases offset_cases dayOffDefault eveningOffDefault nightOffDefault m with
    hoff | hoff | hoff
  · have h : effective_ceiling m * 100 = ((-1500 : ℤ) : ℚ) := by
      simp only [effective_ceiling]
      rw [hoff]
      norm_num [baseMaxDefault, nightOffDefault]
    rw [pytrunc_exact h]
    ring
  · have h : effective_ceiling m * 100 = ((-800 : ℤ) : ℚ) := by
      simp only [effective_ceiling]
      rw [hoff]
      norm_num [baseMaxDefault, eveningOffDefault]
    rw [pytrunc_exact h]
    ring
  · have h : effective_ceiling m * 100 = ((-100 : ℤ) : ℚ) := by
      simp only [effective_ceiling]
      rw [hoff]
      norm_num [baseMaxDefault, dayOffDefault]
    rw [pytrunc_exact h]
    ring

lemma setPercent_100_is_hw_max :
    mixer_db_of_write minDbDefault hwMaxDefault (MixerWrite.setPercent 100) =
      hwMaxDefault := by
  simp only [mixer_db_of_write]
  push_cast
  ring

/-- C5 (code evaluated at the failing input): on the primary `cset` path the
dB value written by `set_volume` never exceeds the effective ceiling, for
every time of day and every requested percentage — but `set_volume`'s
numid-None fallback writes a raw-hardware percentage whose guard
`max_percent = _db_to_percentage(self.max_db)` always computes 100 (so the
clamp is vacuous): for every time of day `set_volume(100)` then writes
`100%`, i.e. the hardware maximum +4.0 dB, strictly above the effective
ceiling (at 02:00: +4.0 dB against the −15.0 dB ceiling) — the claimed cap
fails on that path.  `adjust_volume` delegates to `set_volume` on both
paths. -/
theorem set_volume_fallback_breaks_ceiling :
    (∀ (m : ℕ) (p : ℤ),
        mixer_db_of_write minDbDefault hwMaxDefault
            (set_volume minDbDefault (effective_ceiling m) true p) ≤
          effective_ceiling m)
    ∧ (∀ m : ℕ, db_to_percentage minDbDefault (effective_ceiling m)
        (effective_ceiling m) = 100)
    ∧ (∀ m : ℕ, set_volume minDbDefault (effective_ceiling m) false 100 =
        MixerWrite.setPercent 100)
    ∧ mixer_db_of_write minDbDefault hwMaxDefault (MixerWrite.setPercent 100)
        = hwMaxDefault
    ∧ (∀ m : ℕ, effective_ceiling m < hwMaxDefault)
    ∧ (∀ (na : Bool) (current delta : ℤ) (m : ℕ),
        adjust_volume minDbDefault (effective_ceiling m) na current delta =
          set_volume minDbDefault (effective_ceiling m) na (current + delta)) := by
  refine ⟨?_, fun m => db_to_percentage_max (minDb_lt_ceiling m), ?_,
    setPercent_100_is_hw_max, effective_ceiling_lt_hwMax,
    fun na current delta m => rfl⟩
  · intro m p
    have hmw : mixer_db_of_write minDbDefault hwMaxDefault
        (set_volume minDbDefault (effective_ceiling m) true p) =
        (pytrunc (percentage_to_db minDbDefault (effective_ceiling m)
          (max 0 (min 100 p)) * 100) : ℚ) / 100 := rfl
    rw [hmw]
    have key : ∀ k : ℤ, (k : ℚ) = 100 * effective_ceiling m →
        (pytrunc (percentage_to_db minDbDefault (effective_ceiling m)
          (max 0 (min 100 p)) * 100) : ℚ) / 100 ≤ effective_ceiling m := by
      intro k hk
      have hraw := set_volume_cset_raw_le (minDb_lt_ceiling m).le hk p
      have hrq : (pytrunc (percentage_to_db minDbDefault (effective_ceiling m)
          (max 0 (min 100 p)) * 100) : ℚ) ≤ (k : ℚ) := by exact_mod_cast hraw
      rw [hk] at hrq
      linarith
    rcases offset_cases dayOffDefault eveningOffDefault nightOffDefault m with
      hoff | hoff | hoff
    · exact key (-1500)
        (by simp only [effective_ceiling]; rw [hoff];
            norm_num [baseMaxDefault, nightOffDefault])
    · exact key (-800)
        (by simp only [effective_ceiling]; rw [hoff];
            norm_num [baseMaxDefault, eveningOffDefault])
    · exact key (-100)
        (by simp only [effective_ceiling]; rw [hoff];
            norm_num [baseMaxDefault, dayOffDefault])
  · intro m
    have h100 := db_to_percentage_max (minDb_lt_ceiling m)
    simp only [set_volume, h100]
    norm_num

/-- C6 (code evaluated at the failing input): on the primary `cset` path the
periodic limiter's write equals the new ceiling exactly, a write is issued on
an observed level above the ceiling, no write on a level at or below it and
none on an unreadable level — but the numid-None fallback's "reduction"
writes `max_percent = _db_to_percentage(new_max_db) = 100` percent, i.e. the
raw hardware maximum +4.0 dB: at 02:00 with the mixer at −10 dB (above the
−15 dB ceiling) the fallback leaves the mixer at +4.0 dB, above both the
ceiling and the previous level — the update raises the volume instead of
capping it, while the code logs a reduction to the ceiling. -/
theorem update_time_limit_fallback_raises :
    (∀ m : ℕ, mixer_db_of_write minDbDefault hwMaxDefault
        (MixerWrite.csetDbRaw (pytrunc (effective_ceiling m * 100))) =
          effective_ceiling m)
    ∧ (update_time_based_limit minDbDefault baseMaxDefault dayOffDefault
        eveningOffDefault nightOffDefault 120 true (some (-10))).2 =
          some (MixerWrite.csetDbRaw (-1500))
    ∧ (update_time_based_limit minDbDefault baseMaxDefault dayOffDefault
        eveningOffDefault nightOffDefault 120 true (some (-20))).2 = none
    ∧ (update_time_based_limit minDbDefault baseMaxDefault dayOffDefault
        eveningOffDefault nightOffDefault 120 true none).2 = none
    ∧ (update_time_based_limit minDbDefault baseMaxDefault dayOffDefault
        eveningOffDefault nightOffDefault 120 false (some (-10))).2 =
          some (MixerWrite.setPercent 100)
    ∧ mixer_db_of_write minDbDefault hwMaxDefault (MixerWrite.setPercent 100)
        = hwMaxDefault
    ∧ effective_ceiling 120 < hwMaxDefault
    ∧ (-10 : ℚ) < hwMaxDefault := by
  have hnm : baseMaxDefault + get_time_based_db_offset dayOffDefault
      eveningOffDefault nightOffDefault 120 = -15 := effective_ceiling_at_0200
  refine ⟨?_, ?_, ?_, rfl, ?_, setPercent_100_is_hw_max,
    effective_ceiling_lt_hwMax 120, by norm_num [hwMaxDefault]⟩
  · intro m
    simp only [mixer_db_of_write]
    rw [cset_ceiling_exact m]
    ring
  · simp only [update_time_based_limit]
    rw [hnm, if_pos (by norm_num : (-15 : ℚ) < -10)]
    simp
    rw [show (-(15 * 100 : ℚ)) = ((-1500 : ℤ) : ℚ) by norm_num, pytrunc_intCast]
  · simp only [update_time_based_limit]
    rw [hnm, if_neg (by norm_num : ¬((-15 : ℚ) < -20))]
  · simp only [update_time_based_limit]
    rw [hnm, if_pos (by norm_num : (-15 : ℚ) < -10)]
    have h100 : db_to_percentage minDbDefault (-15) (-15) = 100 :=
      db_to_percentage_max (by norm_num [minDbDefault])
    simp [h100]

/-- C10: whenever the mixer range satisfies `min_db < max_db`, the
percentage↔dB conversions round-trip exactly on every integer percentage in
`[0, 100]`, `_percentage_to_db` lands in `[min_db, max_db]` with 0 mapped to
`min_db`, and `_db_to_percentage` always lands in `[0, 100]`. -/
theorem db_percentage_round_trip (min_db max_db : ℚ) (p : ℤ)
    (hlt : min_db < max_db) (h0 : 0 ≤ p) (h100 : p ≤ 100) :
    db_to_percentage min_db max_db (percentage_to_db min_db max_db p) = p
    ∧ min_db ≤ percentage_to_db min_db max_db p
    ∧ percentage_to_db min_db max_db p ≤ max_db
    ∧ percentage_to_db min_db max_db 0 = min_db
    ∧ ∀ q : ℚ, 0 ≤ db_to_percentage min_db max_db q ∧
        db_to_percentage min_db max_db q ≤ 100 := by
  have hne : max_db ≠ min_db := hlt.ne'
  have hΔ : max_db - min_db ≠ 0 := sub_ne_zero.mpr hne
  have hclamp : max 0 (min 100 p) = p := by omega
  refine ⟨?_, le_percentage_to_db hlt.le p, percentage_to_db_le hlt.le p, ?_, ?_⟩
  · have hlo := le_percentage_to_db hlt.le p
    have hhi := percentage_to_db_le hlt.le p
    unfold db_to_percentage
    have hv : max min_db (min max_db (percentage_to_db min_db max_db p)) =
        percentage_to_db min_db max_db p := by
      rw [min_eq_right hhi, max_eq_right hlo]
    rw [if_neg hne]
    simp only [hv]
    unfold percentage_to_db
    rw [hclamp]
    by_cases hz : p = 0
    · subst hz
      simp [pytrunc, Int.floor_intCast]
    · rw [if_neg hz]
      have harg : (min_db + (p : ℚ) / 100 * (max_db - min_db) - min_db) /
          (max_db - min_db) * 100 = (p : ℚ) := by
        field_simp
        ring
      rw [harg, pytrunc_intCast]
      omega
  · simp [percentage_to_db]
  · intro q
    unfold db_to_percentage
    rw [if_neg hne]
    refine ⟨le_max_left _ _, max_le (by norm_num) (min_le_left _ _)⟩

/-- Witness for C10 at the concrete range `[0, 1]` and percentage 50. -/
theorem db_percentage_round_trip_witness :
    ((0 : ℚ) < 1 ∧ (0 : ℤ) ≤ 50 ∧ (50 : ℤ) ≤ 100) ∧
    db_to_percentage 0 1 (percentage_to_db 0 1 50) = 50 :=
  ⟨⟨by decide, by decide, by decide⟩,
    (db_percentage_round_trip 0 1 50 (by decide) (by decide) (by decide)).1⟩

lemma find_source_index_some {l : List Source} {cid : String} {j : ℕ}
    (h : find_source_index l cid = some j) :
    ∃ s, l.get? j = some s ∧ s.id = cid := by
  induction l generalizing j with
  | nil => unfold find_source_index at h; simp at h
  | cons a rest ih =>
      rw [find_source_index] at h
      by_cases ha : a.id = cid
      · rw [if_pos ha] at h
        cases h
        exact ⟨a, rfl, ha⟩
      · rw [if_neg ha] at h
        cases hrec : find_source_index rest cid with
        | none => rw [hrec] at h; simp at h
        | some j' =>
            rw [hrec] at h
            simp only [Option.map_some', Option.some.injEq] at h
            obtain ⟨s, hs, hid⟩ := ih hrec
            exact ⟨s, by rw [← h]; simpa using hs, hid⟩

lemma find_source_index_eq_none {l : List Source} {cid : String}
    (h : ∀ s ∈ l, s.id ≠ cid) : find_source_index l cid = none := by
  induction l with
  | nil => rfl
  | cons a rest ih =>
      rw [find_source_index]
      rw [if_neg (h a (List.mem_cons_self a rest))]
      rw [ih (fun s hs => h s (List.mem_cons_of_mem a hs))]
      rfl

/-- C8 counterexample: the claim as stated fails when the changed file is
empty.  With sources `[A, B]`, current index 1 (= B), and a reload whose new
file contains no sources, Python skips the whole restore block (`self._sources`
is falsy) and the index stays 1 — it is not reset to 0. -/
theorem reload_empty_file_keeps_stale_index :
    (reload_sources
        ⟨[⟨"a", "A", "youtube_channel", some "ca", none⟩,
          ⟨"b", "B", "youtube_channel", some "cb", none⟩], 1⟩
        true []).2.current_index = 1 := by
  rfl

/-- C8 (amended): on a reload of a changed file whose new source list is
nonempty, if the new list still contains a source with the current source B's
id then the current index moves to B's (first) position there; if no source
with B's id remains the index resets to 0.  (If the new file has no sources at
all, the restore block is skipped and the old index is retained — see the
counterexample.) -/
theorem reload_preserves_current_by_id (st : SMState) (newSources : List Source)
    (B : Source) (hcur : st.sources.get? st.current_index = some B)
    (hid : B.id ≠ "") (hne : newSources ≠ []) :
    (∀ j, find_source_index newSources B.id = some j →
        (reload_sources st true newSources).2.current_index = j ∧
        ∃ s, newSources.get? j = some s ∧ s.id = B.id)
    ∧ ((∀ s ∈ newSources, s.id ≠ B.id) →
        (reload_sources st true newSources).2.current_index = 0)
    ∧ (reload_sources st true newSources).2.sources = newSources
    ∧ (reload_sources st true newSources).1 = true := by
  have hred : reload_sources st true newSources =
      (match find_source_index newSources B.id with
        | some j => (true, { sources := newSources, current_index := j })
        | none => (true, { sources := newSources, current_index := 0 })) := by
    unfold reload_sources
    rw [if_neg (by simp)]
    simp only [hcur, Option.map_some']
    rw [if_pos ⟨hid, hne⟩]
  refine ⟨?_, ?_, ?_, ?_⟩
  · intro j hj
    rw [hred, hj]
    exact ⟨rfl, find_source_index_some hj⟩
  · intro habs
    rw [hred, find_source_index_eq_none habs]
  · rw [hred]
    cases find_source_index newSources B.id <;> rfl
  · rw [hred]
    cases find_source_index newSources B.id <;> rfl

/-- Witness for the amended C8: sources `[A, B, C]` with current = B;
reloading to `[A, B]` keeps current = B (index 1); the same theorem applied to
a reload to `[A, C]` (B removed) resets the index to 0. -/
theorem reload_preserves_current_by_id_witness :
    (([⟨"a", "A", "youtube_channel", some "ca", none⟩,
        ⟨"b", "B", "youtube_channel", some "cb", none⟩,
        ⟨"c", "C", "spotify_playlist", none, some "pc"⟩] :
          List Source).get? 1 = some ⟨"b", "B", "youtube_channel", some "cb", none⟩
      ∧ ("b" : String) ≠ ""
      ∧ ([⟨"a", "A", "youtube_channel", some "ca", none⟩,
          ⟨"b", "B", "youtube_channel", some "cb", none⟩] : List Source) ≠ [])
    ∧ (reload_sources
        ⟨[⟨"a", "A", "youtube_channel", some "ca", none⟩,
          ⟨"b", "B", "youtube_channel", some "cb", none⟩,
          ⟨"c", "C", "spotify_playlist", none, some "pc"⟩], 1⟩
        true
        [⟨"a", "A", "youtube_channel", some "ca", none⟩,
         ⟨"b", "B", "youtube_channel", some "cb", none⟩]).2.current_index = 1
    ∧ (reload_sources
        ⟨[⟨"a", "A", "youtube_channel", some "ca", none⟩,
          ⟨"b", "B", "youtube_channel", some "cb", none⟩,
          ⟨"c", "C", "spotify_playlist", none, some "pc"⟩], 1⟩
        true
        [⟨"a", "A", "youtube_channel", some "ca", none⟩,
         ⟨"c", "C", "spotify_playlist", none, some "pc"⟩]).2.current_index = 0 :=
  ⟨⟨by decide, by decide, by decide⟩,
    ((reload_preserves_current_by_id
        ⟨[⟨"a", "A", "youtube_channel", some "ca", none⟩,
          ⟨"b", "B", "youtube_channel", some "cb", none⟩,
          ⟨"c", "C", "spotify_playlist", none, some "pc"⟩], 1⟩
        [⟨"a", "A", "youtube_channel", some "ca", none⟩,
         ⟨"b", "B", "youtube_channel", some "cb", none⟩]
        ⟨"b", "B", "youtube_channel", some "cb", none⟩
        (by decide) (by decide) (by decide)).1 1 (by decide)).1,
    (reload_preserves_current_by_id
        ⟨[⟨"a", "A", "youtube_channel", some "ca", none⟩,
          ⟨"b", "B", "youtube_channel", some "cb", none⟩,
          ⟨"c", "C", "spotify_playlist", none, some "pc"⟩], 1⟩
        [⟨"a", "A", "youtube_channel", some "ca", none⟩,
         ⟨"c", "C", "spotify_playlist", none, some "pc"⟩]
        ⟨"b", "B", "youtube_channel", some "cb", none⟩
        (by decide) (by decide) (by decide)).2.1 (by decide)⟩

lemma playLoop_failure_inv (source : Source) (st : ControllerState)
    (env : ℕ → AttemptEnv) :
    ∀ (fuel attempt : ℕ),
      (playLoop source st env fuel attempt).result = false →
      (playLoop source st env fuel attempt).state = st ∧
      ∀ b s, Effect.install b s ∉ (playLoop source st env fuel attempt).trace := by
  intro fuel
  induction fuel with
  | zero =>
      intro attempt _
      refine ⟨rfl, ?_⟩
      intro b s hmem
      simp [playLoop] at hmem
  | succ fuel ih =>
      intro attempt h
      cases hc : (env attempt).cancelSet with
      | true => simp [playLoop, hc]
      | false =>
          by_cases ht : (env attempt).targetAtLoopHead = some source
          · cases hb : get_backend_for_source source with
            | error e' =>
                by_cases ha : attempt < MAX_RETRIES
                · have h' : (playLoop source st env fuel (attempt + 1)).result = false := by
                    simpa [playLoop, hc, ht, hb, ha] using h
                  obtain ⟨hst, hni⟩ := ih (attempt + 1) h'
                  refine ⟨by simpa [playLoop, hc, ht, hb, ha] using hst, ?_⟩
                  intro b s
                  simp only [playLoop, hc, ht, hb, ha]
                  simp only [ne_eq, not_true_eq_false, if_false, Bool.false_eq_true,
                    reduceIte, List.mem_cons]
                  rintro (heq | hmem)
                  · exact Effect.noConfusion heq
                  · exact hni b s hmem
                · simp [playLoop, hc, ht, hb, ha]
            | ok backend =>
                cases hp : (env attempt).playResult with
                | success =>
                    by_cases hstale : (env attempt).targetAfterPlay = some source
                    · exfalso
                      simp [playLoop, hc, ht, hb, hp, hstale] at h
                    · simp [playLoop, hc, ht, hb, hp, hstale]
                | failure =>
                    by_cases ha : attempt < MAX_RETRIES
                    · have h' : (playLoop source st env fuel (attempt + 1)).result = false := by
                        simpa [playLoop, hc, ht, hb, hp, ha] using h
                      obtain ⟨hst, hni⟩ := ih (attempt + 1) h'
                      refine ⟨by simpa [playLoop, hc, ht, hb, hp, ha] using hst, ?_⟩
                      intro b s
                      simp only [playLoop, hc, ht, hb, hp, ha]
                      simp only [ne_eq, not_true_eq_false, if_false, Bool.false_eq_true,
                        reduceIte, List.mem_cons]
                      rintro (heq | heq | hmem)
                      · exact Effect.noConfusion heq
                      · exact Effect.noConfusion heq
                      · exact hni b s hmem
                    · simp [playLoop, hc, ht, hb, hp, ha]
          · simp [playLoop, hc, ht]

lemma playLoop_stale_success (source : Source) (st : ControllerState)
    (env : ℕ → AttemptEnv) :
    ∀ (fuel attempt : ℕ) (b : BackendId) (i : ℕ),
      Effect.playCall b i ∈ (playLoop source st env fuel attempt).trace →
      (env i).playResult = .success →
      (env i).targetAfterPlay ≠ some source →
      (playLoop source st env fuel attempt).result = false ∧
      Effect.stopStale b ∈ (playLoop source st env fuel attempt).trace := by
  intro fuel
  induction fuel with
  | zero =>
      intro attempt b i hmem _ _
      simp [playLoop] at hmem
  | succ fuel ih =>
      intro attempt b i hmem hsucc hstale
      cases hc : (env attempt).cancelSet with
      | true => simp [playLoop, hc] at hmem
      | false =>
          by_cases ht : (env attempt).targetAtLoopHead = some source
          · cases hb : get_backend_for_source source with
            | error e' =>
                by_cases ha : attempt < MAX_RETRIES
                · have hmem' : Effect.playCall b i ∈
                      (playLoop source st env fuel (attempt + 1)).trace := by
                    have := hmem
                    simp only [playLoop, hc, ht, hb, ha] at this
                    simpa using this
                  obtain ⟨hres, hstop⟩ := ih (attempt + 1) b i hmem' hsucc hstale
                  constructor
                  · simpa [playLoop, hc, ht, hb, ha] using hres
                  · simp only [playLoop, hc, ht, hb, ha]
                    simp only [ne_eq, not_true_eq_false, if_false,
                      Bool.false_eq_true, reduceIte, List.mem_cons]
                    exact Or.inr hstop
                · simp [playLoop, hc, ht, hb, ha] at hmem
            | ok backend =>
                cases hp : (env attempt).playResult with
                | success =>
                    by_cases hsame : (env attempt).targetAfterPlay = some source
                    · -- install branch: the play call recorded here is attempt's,
                      -- whose post-play target equals the source — contradiction
                      exfalso
                      have hmem' := hmem
                      cases hob : st.current_backend with
                      | none =>
                          simp [playLoop, hc, ht, hb, hp, hsame, hob] at hmem'
                          obtain ⟨hbeq, hieq⟩ := hmem'
                          rw [hieq] at hstale
                          exact hstale hsame
                      | some ob =>
                          by_cases hdiff : ob = backend
                          · simp [playLoop, hc, ht, hb, hp, hsame, hob, hdiff] at hmem'
                            obtain ⟨hbeq, hieq⟩ := hmem'
                            rw [hieq] at hstale
                            exact hstale hsame
                          · simp [playLoop, hc, ht, hb, hp, hsame, hob, hdiff] at hmem'
                            obtain ⟨hbeq, hieq⟩ := hmem'
                            rw [hieq] at hstale
                            exact hstale hsame
                    · -- stale-abort branch
                      have hmem' := hmem
                      simp [playLoop, hc, ht, hb, hp, hsame] at hmem'
                      obtain ⟨hbeq, hieq⟩ := hmem'
                      subst hbeq
                      constructor
                      · simp [playLoop, hc, ht, hb, hp, hsame]
                      · simp [playLoop, hc, ht, hb, hp, hsame]
                | failure =>
                    by_cases ha : attempt < MAX_RETRIES
                    · have hmem' := hmem
                      simp only [playLoop, hc, ht, hb, hp, ha] at hmem'
                      simp only [ne_eq, not_true_eq_false, if_false,
                        Bool.false_eq_true, reduceIte, List.mem_cons] at hmem'
                      rcases hmem' with heq | heq | hrec
                      · -- the head play call is attempt's, which failed
                        exfalso
                        obtain ⟨hbeq, hieq⟩ := Effect.playCall.inj heq
                        rw [hieq] at hsucc
                        rw [hsucc] at hp
                        exact PlayOutcome.noConfusion hp
                      · exact absurd heq (by simp)
                      · obtain ⟨hres, hstop⟩ := ih (attempt + 1) b i hrec hsucc hstale
                        constructor
                        · simpa [playLoop, hc, ht, hb, hp, ha] using hres
                        · simp only [playLoop, hc, ht, hb, hp, ha]
                          simp only [ne_eq, not_true_eq_false, if_false,
                            Bool.false_eq_true, reduceIte, List.mem_cons]
                          exact Or.inr (Or.inr hstop)
                    · exfalso
                      have hmem' := hmem
                      simp [playLoop, hc, ht, hb, hp, ha] at hmem'
                      obtain ⟨hbeq, hieq⟩ := hmem'
                      rw [hieq] at hsucc
                      rw [hsucc] at hp
                      exact PlayOutcome.noConfusion hp
          · simp [playLoop, hc, ht] at hmem

lemma playLoop_no_launch (source : Source) (st : ControllerState)
    (env : ℕ → AttemptEnv) :
    ∀ (fuel attempt : ℕ) (s' : Source),
      Effect.launchRetry s' ∉ (playLoop source st env fuel attempt).trace := by
  intro fuel
  induction fuel with
  | zero =>
      intro attempt s' hmem
      simp [playLoop] at hmem
  | succ fuel ih =>
      intro attempt s' hmem
      cases hc : (env attempt).cancelSet with
      | true => simp [playLoop, hc] at hmem
      | false =>
          by_cases ht : (env attempt).targetAtLoopHead = some source
          · cases hb : get_backend_for_source source with
            | error e' =>
                by_cases ha : attempt < MAX_RETRIES
                · have hmem' := hmem
                  simp [playLoop, hc, ht, hb, ha] at hmem'
                  exact ih (attempt + 1) s' hmem'
                · simp [playLoop, hc, ht, hb, ha] at hmem
            | ok backend =>
                cases hp : (env attempt).playResult with
                | success =>
                    by_cases hsame : (env attempt).targetAfterPlay = some source
                    · cases hob : st.current_backend with
                      | none =>
                          simp [playLoop, hc, ht, hb, hp, hsame, hob] at hmem
                      | some ob =>
                          by_cases hdiff : ob = backend <;>
                            simp [playLoop, hc, ht, hb, hp, hsame, hob, hdiff] at hmem
                    · simp [playLoop, hc, ht, hb, hp, hsame] at hmem
                | failure =>
                    by_cases ha : attempt < MAX_RETRIES
                    · have hmem' := hmem
                      simp [playLoop, hc, ht, hb, hp, ha] at hmem'
                      exact ih (attempt + 1) s' hmem'
                    · simp [playLoop, hc, ht, hb, hp, ha] at hmem
          · simp [playLoop, hc, ht] at hmem

lemma play_source_with_retry_failure_inv (source : Source) (st : ControllerState)
    (env : RetryEnv)
    (h : (play_source_with_retry source st env).result = false) :
    (play_source_with_retry source st env).state = st ∧
    ∀ b s, Effect.install b s ∉ (play_source_with_retry source st env).trace := by
  unfold play_source_with_retry at h ⊢
  by_cases hi : env.initialTarget = some source
  · simp only [hi, ne_eq, not_true_eq_false, if_false] at h ⊢
    exact playLoop_failure_inv source st env.att MAX_RETRIES 1 h
  · refine ⟨by simp [hi], ?_⟩
    intro b s hmem
    simp [hi] at hmem

/-- C1: if `backend.play(...)` for source S returns success inside
`_play_source_with_retry` but the post-success staleness re-check sees a
target other than S, the controller stops the backend that just started,
returns `False`, leaves `current_backend` and `current_source` unchanged, and
never installs the stale backend. -/
theorem stale_success_never_installed (source : Source) (st : ControllerState)
    (env : RetryEnv) (b : BackendId) (i : ℕ)
    (hplay : Effect.playCall b i ∈ (play_source_with_retry source st env).trace)
    (hsucc : (env.att i).playResult = .success)
    (hstale : (env.att i).targetAfterPlay ≠ some source) :
    (play_source_with_retry source st env).result = false
    ∧ Effect.stopStale b ∈ (play_source_with_retry source st env).trace
    ∧ (play_source_with_retry source st env).state.current_backend =
        st.current_backend
    ∧ (play_source_with_retry source st env).state.current_source =
        st.current_source
    ∧ ∀ b' s', Effect.install b' s' ∉ (play_source_with_retry source st env).trace := by
  by_cases hi : env.initialTarget = some source
  · have hplay' : Effect.playCall b i ∈
        (playLoop source st env.att MAX_RETRIES 1).trace := by
      have := hplay
      simp only [play_source_with_retry, hi, ne_eq, not_true_eq_false,
        if_false] at this
      exact this
    obtain ⟨hres, hstop⟩ :=
      playLoop_stale_success source st env.att MAX_RETRIES 1 b i hplay' hsucc hstale
    have hfail : (play_source_with_retry source st env).result = false := by
      simp only [play_source_with_retry, hi, ne_eq, not_true_eq_false, if_false]
      exact hres
    obtain ⟨hstate, hni⟩ := play_source_with_retry_failure_inv source st env hfail
    refine ⟨hfail, ?_, by rw [hstate], by rw [hstate], hni⟩
    simp only [play_source_with_retry, hi, ne_eq, not_true_eq_false, if_false]
    exact hstop
  · exfalso
    simp [play_source_with_retry, hi] at hplay


/-- Witness for C1: the target stays on the Spotify source until `play()`
succeeds, then the post-success re-check sees `None`: the retry returns
`False` and the just-started backend is stopped. -/
theorem stale_success_never_installed_witness :
    (Effect.playCall BackendId.spotify 1 ∈
        (play_source_with_retry sourceSpotifyFx stIdleFx envSuccessStaleFx).trace
      ∧ (envSuccessStaleFx.att 1).playResult = PlayOutcome.success
      ∧ (envSuccessStaleFx.att 1).targetAfterPlay ≠ some sourceSpotifyFx)
    ∧ ((play_source_with_retry sourceSpotifyFx stIdleFx envSuccessStaleFx).result
        = false
      ∧ Effect.stopStale BackendId.spotify ∈
        (play_source_with_retry sourceSpotifyFx stIdleFx envSuccessStaleFx).trace) :=
  ⟨⟨by decide, by decide, by decide⟩,
    ⟨(stale_success_never_installed sourceSpotifyFx stIdleFx envSuccessStaleFx
        BackendId.spotify 1 (by decide) (by decide) (by decide)).1,
      (stale_success_never_installed sourceSpotifyFx stIdleFx envSuccessStaleFx
        BackendId.spotify 1 (by decide) (by decide) (by decide)).2.1⟩⟩

/-- C2: when `_play_source_with_retry(S)` returns `False` (retries exhausted)
and the attempt was neither cancelled nor stale, `retry_in_background` only
appends the failure log line: the controller state is unchanged (prior
backend and source retained), no backend is installed, and no switch to any
other source is launched. -/
theorem no_auto_cascade_on_exhaustion (source : Source) (st : ControllerState)
    (env : RetryEnv) (old : Option BackendId) (targetAfter : Option Source)
    (hfail : (play_source_with_retry source st env).result = false)
    (htgt : targetAfter = some source) :
    (retry_in_background source st env old false targetAfter).state = st
    ∧ (retry_in_background source st env old false targetAfter).trace =
        (play_source_with_retry source st env).trace ++
          [Effect.logFailureNoCascade]
    ∧ (∀ b s, Effect.install b s ∉
        (retry_in_background source st env old false targetAfter).trace)
    ∧ (∀ s', Effect.launchRetry s' ∉
        (retry_in_background source st env old false targetAfter).trace) := by
  obtain ⟨hstate, hni⟩ := play_source_with_retry_failure_inv source st env hfail
  have hnl : ∀ s', Effect.launchRetry s' ∉
      (play_source_with_retry source st env).trace := by
    intro s'
    unfold play_source_with_retry
    by_cases hi : env.initialTarget = some source
    · simp only [hi, ne_eq, not_true_eq_false, if_false]
      exact playLoop_no_launch source st env.att MAX_RETRIES 1 s'
    · simp [hi]
  have hR : retry_in_background source st env old false targetAfter =
      ⟨false, (play_source_with_retry source st env).state,
        (play_source_with_retry source st env).trace ++
          [Effect.logFailureNoCascade]⟩ := by
    simp [retry_in_background, hfail, htgt]
  refine ⟨by rw [hR]; exact hstate, by rw [hR], ?_, ?_⟩
  · intro b s hmem
    rw [hR] at hmem
    simp only [List.mem_append, List.mem_singleton] at hmem
    rcases hmem with hmem | heq
    · exact hni b s hmem
    · exact Effect.noConfusion heq
  · intro s' hmem
    rw [hR] at hmem
    simp only [List.mem_append, List.mem_singleton] at hmem
    rcases hmem with hmem | heq
    · exact hnl s' hmem
    · exact Effect.noConfusion heq

/-- Witness for C2: every `play()` fails, the attempt is not cancelled and the
target still points at the source: the state is unchanged and only the
failure is logged. -/
theorem no_auto_cascade_on_exhaustion_witness :
    ((play_source_with_retry sourceSpotifyFx stIdleFx envAlwaysFailFx).result
        = false
      ∧ (some sourceSpotifyFx : Option Source) = some sourceSpotifyFx)
    ∧ (retry_in_background sourceSpotifyFx stIdleFx envAlwaysFailFx none false
        (some sourceSpotifyFx)).state = stIdleFx :=
  ⟨⟨by decide, rfl⟩,
    (no_auto_cascade_on_exhaustion sourceSpotifyFx stIdleFx envAlwaysFailFx
      none (some sourceSpotifyFx) (by decide) rfl).1⟩

/-- C3: for a source with a resolvable backend whose every `play()` raises,
with a valid uncancelled target throughout, `_play_source_with_retry` calls
`play()` exactly `MAX_RETRIES = 2` times with exactly one `RETRY_SLEEP = 2.0`s
sleep strictly between the attempts (never after the last), then returns
`False`. -/
theorem retry_cap_exact (source : Source) (st : ControllerState) (env : RetryEnv)
    (b : BackendId) (hb : get_backend_for_source source = .ok b)
    (hinit : env.initialTarget = some source)
    (henv : ∀ i, (env.att i).cancelSet = false ∧
      (env.att i).targetAtLoopHead = some source ∧
      (env.att i).playResult = .failure) :
    play_source_with_retry source st env =
      ⟨false, st,
        [Effect.playCall b 1, Effect.sleep RETRY_SLEEP, Effect.playCall b 2]⟩
    ∧ MAX_RETRIES = 2 ∧ RETRY_SLEEP = 2 := by
  obtain ⟨h1c, h1t, h1p⟩ := henv 1
  obtain ⟨h2c, h2t, h2p⟩ := henv 2
  have step1 : playLoop source st env.att 2 1 =
      ⟨false, st,
        [Effect.playCall b 1, Effect.sleep RETRY_SLEEP, Effect.playCall b 2]⟩ := by
    show playLoop source st env.att (1 + 1) 1 = _
    simp [playLoop, h1c, h1t, h1p, h2c, h2t, h2p, hb, MAX_RETRIES]
  refine ⟨?_, rfl, rfl⟩
  simp only [play_source_with_retry, hinit, ne_eq, not_true_eq_false, if_false]
  exact step1

/-- Witness for C3 on the Spotify fixture with an always-failing `play()`. -/
theorem retry_cap_exact_witness :
    (get_backend_for_source sourceSpotifyFx = .ok .spotify
      ∧ envAlwaysFailFx.initialTarget = some sourceSpotifyFx)
    ∧ play_source_with_retry sourceSpotifyFx stIdleFx envAlwaysFailFx =
        ⟨false, stIdleFx,
          [Effect.playCall .spotify 1, Effect.sleep RETRY_SLEEP,
            Effect.playCall .spotify 2]⟩ :=
  ⟨⟨rfl, rfl⟩,
    (retry_cap_exact sourceSpotifyFx stIdleFx envAlwaysFailFx .spotify rfl rfl
      (fun _ => ⟨rfl, rfl, rfl⟩)).1⟩

/-- C9 (code evaluated at the failing input): a source of unknown type is NOT
fatal for the switch: `_get_backend_for_source` raises `ValueError` before the
loop's own unknown-type `return False` can run, the blanket
`except Exception` handler treats it like a retriable error, sleeps
`RETRY_SLEEP` and makes a second resolution attempt before giving up (the
trace records the sleep between the two failed iterations).  Likewise an
exception with no special handling anywhere (such as `PermissionError`) takes
the same blanket handler: `play()` is called `MAX_RETRIES = 2` times with a
sleep between, not once. -/
theorem unknown_type_and_fatal_errors_are_retried :
    get_backend_for_source sourceUnknownFx = .error "radio_stream"
    ∧ play_source_with_retry sourceUnknownFx stIdleUnknownFx envUnknownFx =
        ⟨false, stIdleUnknownFx, [Effect.sleep RETRY_SLEEP]⟩
    ∧ play_source_with_retry sourceSpotifyFx stIdleFx envAlwaysFailFx =
        ⟨false, stIdleFx,
          [Effect.playCall .spotify 1, Effect.sleep RETRY_SLEEP,
            Effect.playCall .spotify 2]⟩
    ∧ RETRY_SLEEP = 2 :=
  ⟨rfl, by decide, by decide, rfl⟩

/-- C4 (code evaluated at the failing input): with exactly one configured
source, cycling selects the same source and `_on_cycle_source` skips its
immediate stop — but the subsequent `_switch_source` still stops the
currently playing backend (its ensure-stopped check sees `is_playing()`
true), and the launched retry then calls `play()` again, restarting it. -/
theorem same_source_cycle_stops_and_restarts :
    (cycle_source smOneSourceFx).1 = some sourceSpotifyFx
    ∧ (on_cycle_source stPlayingFx (some sourceSpotifyFx) true).2 =
        [Effect.ensureStopOld .spotify, Effect.launchRetry sourceSpotifyFx]
    ∧ (Effect.stopCurrentOnCycle BackendId.spotify ∉
        (on_cycle_source stPlayingFx (some sourceSpotifyFx) true).2)
    ∧ Effect.ensureStopOld BackendId.spotify ∈
        (on_cycle_source stPlayingFx (some sourceSpotifyFx) true).2
    ∧ (on_cycle_source stPlayingFx (some sourceSpotifyFx) true).1.target_source
        = some sourceSpotifyFx
    ∧ Effect.playCall BackendId.spotify 1 ∈
        (play_source_with_retry sourceSpotifyFx
          (on_cycle_source stPlayingFx (some sourceSpotifyFx) true).1
          envRestartFx).trace := by
  decide

lemma monitorStep_inactive {o : Obs} {s : MonState} (h : s.active = false) :
    monitorStep o s = (s, false) := by
  simp [monitorStep, h]

lemma monitorRun_inactive_mono {obs : ℕ → Obs} {n : ℕ}
    (h : (monitorRun obs n).active = false) :
    ∀ k, monitorRun obs (n + k) = monitorRun obs n := by
  intro k
  induction k with
  | zero => rfl
  | succ k ih =>
      show (monitorStep (obs (n + k)) (monitorRun obs (n + k))).1 = _
      rw [ih, monitorStep_inactive h]

lemma firesAt_false_of_inactive {obs : ℕ → Obs} {n : ℕ}
    (h : (monitorRun obs n).active = false) : firesAt obs n = false := by
  unfold firesAt
  rw [monitorStep_inactive h]

lemma monitorStep_fire_char {o : Obs} {s : MonState}
    (h : (monitorStep o s).2 = true) :
    s.active = true ∧ o.hasPlaylist = true ∧ o.playing = false ∧
    o.paused = false ∧ s.was_playing = true ∧ 2 ≤ s.consecutive ∧
    (monitorStep o s).1 = ⟨s.consecutive + 1, false, false, true⟩ := by
  by_cases h1 : s.active = false
  · rw [monitorStep_inactive h1] at h
    exact absurd h (by simp)
  · have ha : s.active = true := by revert h1; cases s.active <;> simp
    by_cases h2 : o.hasPlaylist = false
    · simp [monitorStep, ha, h2] at h
    · have hpl : o.hasPlaylist = true := by
        revert h2; cases o.hasPlaylist <;> simp
      by_cases h3 : o.playing = true
      · simp [monitorStep, ha, hpl, h3] at h
      · have hng : o.playing = false := by revert h3; cases o.playing <;> simp
        by_cases h4 : (s.was_playing && !o.paused) = true
        · rw [Bool.and_eq_true] at h4
          obtain ⟨hwp, hnp⟩ := h4
          have hps : o.paused = false := by revert hnp; cases o.paused <;> simp
          by_cases h5 : required_stopped_checks ≤ s.consecutive + 1
          · refine ⟨ha, hpl, hng, hps, hwp, ?_, ?_⟩
            · unfold required_stopped_checks at h5
              omega
            · simp [monitorStep, ha, hpl, hng, hwp, hps, h5]
          · exfalso
            simp [monitorStep, ha, hpl, hng, hwp, hps, h5] at h
        · have h4' : (s.was_playing && !o.paused) = false := by
            revert h4; cases (s.was_playing && !o.paused) <;> simp
          simp [monitorStep, ha, hpl, hng, h4'] at h

lemma monitorStep_no_fire_fired {o : Obs} {s : MonState}
    (h : (monitorStep o s).2 = false) :
    (monitorStep o s).1.fired = s.fired ∧
    (monitorStep o s).1.active = s.active := by
  by_cases h1 : s.active = false
  · rw [monitorStep_inactive h1]
    exact ⟨rfl, rfl⟩
  · have ha : s.active = true := by revert h1; cases s.active <;> simp
    by_cases h2 : o.hasPlaylist = false
    · simp [monitorStep, ha, h2]
    · have hpl : o.hasPlaylist = true := by
        revert h2; cases o.hasPlaylist <;> simp
      by_cases h3 : o.playing = true
      · simp [monitorStep, ha, hpl, h3]
      · have hng : o.playing = false := by revert h3; cases o.playing <;> simp
        by_cases h4 : (s.was_playing && !o.paused) = true
        · rw [Bool.and_eq_true] at h4
          obtain ⟨hwp, hnp⟩ := h4
          have hps : o.paused = false := by revert hnp; cases o.paused <;> simp
          by_cases h5 : required_stopped_checks ≤ s.consecutive + 1
          · exfalso
            simp [monitorStep, ha, hpl, hng, hwp, hps, h5] at h
          · simp [monitorStep, ha, hpl, hng, hwp, hps, h5]
        · have h4' : (s.was_playing && !o.paused) = false := by
            revert h4; cases (s.was_playing && !o.paused) <;> simp
          simp [monitorStep, ha, hpl, hng, h4']

lemma monitorRun_fired_iff_inactive (obs : ℕ → Obs) :
    ∀ n, (monitorRun obs n).fired = true ↔ (monitorRun obs n).active = false := by
  intro n
  induction n with
  | zero => simp [monitorRun, monitorInit]
  | succ n ih =>
      have hrun : monitorRun obs (n + 1) =
          (monitorStep (obs n) (monitorRun obs n)).1 := rfl
      cases hf : (monitorStep (obs n) (monitorRun obs n)).2 with
      | true =>
          obtain ⟨_, _, _, _, _, _, hnew⟩ := monitorStep_fire_char hf
          rw [hrun, hnew]
          simp
      | false =>
          obtain ⟨hfr, hac⟩ := monitorStep_no_fire_fired hf
          rw [hrun, hfr, hac]
          exact ih

lemma fireCount_succ (obs : ℕ → Obs) (n : ℕ) :
    fireCount obs (n + 1) =
      fireCount obs n + (if firesAt obs n = true then 1 else 0) := by
  unfold fireCount
  rw [List.range_succ, List.filter_append]
  simp only [List.length_append]
  by_cases h : firesAt obs n = true <;> simp [h]

lemma fireCount_char (obs : ℕ → Obs) :
    ∀ n, fireCount obs n = if (monitorRun obs n).fired = true then 1 else 0 := by
  intro n
  induction n with
  | zero => simp [fireCount, monitorRun, monitorInit]
  | succ n ih =>
      rw [fireCount_succ, ih]
      have hrun : monitorRun obs (n + 1) =
          (monitorStep (obs n) (monitorRun obs n)).1 := rfl
      cases hfired : (monitorRun obs n).fired with
      | true =>
          have hinact : (monitorRun obs n).active = false :=
            (monitorRun_fired_iff_inactive obs n).mp hfired
          rw [firesAt_false_of_inactive hinact]
          rw [hrun, monitorStep_inactive hinact]
          simp [hfired]
      | false =>
          cases hfire : firesAt obs n with
          | true =>
              obtain ⟨_, _, _, _, _, _, hnew⟩ := monitorStep_fire_char hfire
              rw [hrun, hnew]
              simp
          | false =>
              obtain ⟨h1, _⟩ := monitorStep_no_fire_fired hfire
              rw [hrun, h1, hfired]
              simp

lemma monitorRun_consecutive_history (obs : ℕ → Obs)
    (hP : ∀ j, (obs j).hasPlaylist = true) :
    ∀ n, (monitorRun obs n).active = true →
      (monitorRun obs n).consecutive ≤ n ∧
      ∀ j < (monitorRun obs n).consecutive,
        (obs (n - 1 - j)).playing = false ∧ (obs (n - 1 - j)).paused = false := by
  intro n
  induction n with
  | zero =>
      intro _
      constructor
      · exact le_refl 0
      · intro j hj
        exact absurd hj (by simp [monitorRun, monitorInit])
  | succ n ih =>
      intro hact
      have hrun : monitorRun obs (n + 1) =
          (monitorStep (obs n) (monitorRun obs n)).1 := rfl
      cases hprev : (monitorRun obs n).active with
      | false =>
          exfalso
          rw [hrun, monitorStep_inactive hprev] at hact
          rw [hact] at hprev
          exact Bool.noConfusion hprev
      | true =>
          obtain ⟨hcle, hhist⟩ := ih hprev
          by_cases hplay : (obs n).playing = true
          · have hstep : monitorRun obs (n + 1) =
                { monitorRun obs n with consecutive := 0, was_playing := true } := by
              rw [hrun]
              simp [monitorStep, hprev, hP n, hplay]
            rw [hstep]
            refine ⟨by simp, ?_⟩
            intro j hj
            simp at hj
          · have hng : (obs n).playing = false := by
              revert hplay; cases (obs n).playing <;> simp
            by_cases h4 : ((monitorRun obs n).was_playing && !(obs n).paused) = true
            · rw [Bool.and_eq_true] at h4
              obtain ⟨hwp, hnp⟩ := h4
              have hps : (obs n).paused = false := by
                revert hnp; cases (obs n).paused <;> simp
              by_cases h5 : required_stopped_checks ≤
                  (monitorRun obs n).consecutive + 1
              · exfalso
                have hstep : monitorRun obs (n + 1) =
                    ⟨(monitorRun obs n).consecutive + 1, false, false, true⟩ := by
                  rw [hrun]
                  simp [monitorStep, hprev, hP n, hng, hwp, hps, h5]
                rw [hstep] at hact
                exact Bool.noConfusion hact
              · have hstep : monitorRun obs (n + 1) =
                    { monitorRun obs n with
                      consecutive := (monitorRun obs n).consecutive + 1 } := by
                  rw [hrun]
                  simp [monitorStep, hprev, hP n, hng, hwp, hps, h5]
                rw [hstep]
                constructor
                · simp
                  omega
                · intro j hj
                  simp at hj
                  rcases Nat.eq_zero_or_pos j with hj0 | hjpos
                  · subst hj0
                    have harith : n + 1 - 1 - 0 = n := by omega
                    rw [harith]
                    exact ⟨hng, hps⟩
                  · have hj' : j - 1 < (monitorRun obs n).consecutive := by omega
                    have hh := hhist (j - 1) hj'
                    have harith : n + 1 - 1 - j = n - 1 - (j - 1) := by omega
                    rw [harith]
                    exact hh
            · have h4' : ((monitorRun obs n).was_playing && !(obs n).paused)
                  = false := by
                revert h4
                cases ((monitorRun obs n).was_playing && !(obs n).paused) <;> simp
              have hstep : monitorRun obs (n + 1) =
                  { monitorRun obs n with
                      consecutive := 0, was_playing := false } := by
                rw [hrun]
                simp [monitorStep, hprev, hP n, hng, h4']
              rw [hstep]
              refine ⟨by simp, ?_⟩
              intro j hj
              simp at hj

/-- The callback-firing iteration in detail: it happens only from an active
monitor with a loaded playlist, observing not-playing while not paused with
two prior consecutive such checks; it flips the monitor to a terminal
(inactive, fired) state. -/
lemma firesAt_spec {obs : ℕ → Obs} {i : ℕ} (h : firesAt obs i = true) :
    (monitorRun obs i).active = true ∧ (obs i).playing = false ∧
    (obs i).paused = false ∧ 2 ≤ (monitorRun obs i).consecutive ∧
    (monitorRun obs (i + 1)).active = false := by
  unfold firesAt at h
  obtain ⟨ha, _, hng, hps, _, hc, hnew⟩ := monitorStep_fire_char h
  refine ⟨ha, hng, hps, hc, ?_⟩
  show (monitorStep (obs i) (monitorRun obs i)).1.active = false
  rw [hnew]

/-- C7: over any monitoring session (playlist loaded at every iteration), the
playback-ended callback fires at most once in total; a firing iteration `i`
comes only after at least three consecutive observations of not-playing while
not paused (at `i`, `i−1`, `i−2`, so `i ≥ 2`; in particular fewer consecutive
observations, or an observation while paused, never fire it); and once it
fires the monitor loop is terminated and never fires again. -/
theorem natural_end_debounce (obs : ℕ → Obs)
    (hP : ∀ j, (obs j).hasPlaylist = true) :
    (∀ n, fireCount obs n ≤ 1)
    ∧ (∀ i, firesAt obs i = true →
        2 ≤ i
        ∧ stopped_not_paused (obs i)
        ∧ stopped_not_paused (obs (i - 1))
        ∧ stopped_not_paused (obs (i - 2))
        ∧ (monitorRun obs (i + 1)).active = false
        ∧ ∀ j, i < j → firesAt obs j = false) := by
  constructor
  · intro n
    rw [fireCount_char]
    split <;> omega
  · intro i hfire
    obtain ⟨ha, hng, hps, hc, hstop⟩ := firesAt_spec hfire
    obtain ⟨hcle, hhist⟩ := monitorRun_consecutive_history obs hP i ha
    have h1 := hhist 0 (by omega)
    have h2 := hhist 1 (by omega)
    refine ⟨by omega, ⟨hng, hps⟩, ?_, ?_, hstop, ?_⟩
    · have : i - 1 - 0 = i - 1 := by omega
      rw [this] at h1
      exact h1
    · have : i - 1 - 1 = i - 2 := by omega
      rw [this] at h2
      exact h2
    · intro j hj
      have hj' : j = (i + 1) + (j - (i + 1)) := by omega
      have hrun : monitorRun obs j = monitorRun obs (i + 1) := by
        rw [hj']
        exact monitorRun_inactive_mono hstop _
      apply firesAt_false_of_inactive
      rw [hrun]
      exact hstop

/-- Witness for C7: playing for two iterations then stopped (not paused) with
the playlist loaded throughout — the callback fires at the third consecutive
stopped check (iteration 4), at most once overall, and the loop terminates. -/
theorem natural_end_debounce_witness :
    firesAt obsEndsFx 4 = true
    ∧ fireCount obsEndsFx 10 ≤ 1
    ∧ stopped_not_paused (obsEndsFx 4)
    ∧ (monitorRun obsEndsFx 5).active = false :=
  ⟨by decide,
    (natural_end_debounce obsEndsFx
      (fun j => by unfold obsEndsFx; split <;> rfl)).1 10,
    ((natural_end_debounce obsEndsFx
      (fun j => by unfold obsEndsFx; split <;> rfl)).2 4 (by decide)).2.1,
    ((natural_end_debounce obsEndsFx
      (fun j => by unfold obsEndsFx; split <;> rfl)).2 4 (by decide)).2.2.2.2.1⟩

end RodrigoRadio
